import Mathlib

/-!
Verification of the `quest_bind` register engine (`src/qureg.rs`).

The crate is a safe binding layer over the QuEST simulator: every public
method of `Qureg` either performs a slice-length check in Rust and then
calls a QuEST primitive through `ffi`, or calls the primitive directly,
funnelling QuEST exceptions into `Result<_, QuestError>` via
`catch_quest_exception`.  The Rust-side checks below are translated from
`src/qureg.rs`; the QuEST primitives themselves are not part of the
crate's sources, so their semantics are modelled from the specification
(and the API contracts quoted in the doc comments of `qureg.rs`).

Registers are embedded shallowly: a state-vector of `N` qubits is a map
from amplitude indices `[0, 2^N)` to complex numbers, a density matrix
stores the entry at row `r`, column `c` at flat index `r + c * 2^N`.
Floating-point arithmetic is idealised as real arithmetic.
-/

noncomputable section

namespace QuestBind

/-- Error kinds surfaced by the bindings (`QuestError` in the crate root,
referenced throughout `qureg.rs`): QuEST exceptions are surfaced as
`InvalidQuESTInputError`, and the Rust-side slice-length checks return
`ArrayLengthError`. -/
inductive QuestError where
  | invalidQuESTInputError
  | arrayLengthError
deriving DecidableEq

/-- A quantum register (`Qureg` in `qureg.rs` wrapping `ffi::Qureg`):
the number of qubits, the density-matrix flag, and the amplitude store.
`amps` is total on `ℕ`; only indices below `numAmpsTotal` are meaningful,
entry `(r, c)` of a density matrix lives at flat index
`r + c * 2^numQubits`. -/
@[ext]
structure Qureg where
  numQubits : ℕ
  isDensityMatrix : Bool
  amps : ℕ → ℂ

namespace Qureg

/-- Number of computational basis states, `2^numQubits`. -/
def dim (q : Qureg) : ℕ := 2 ^ q.numQubits

/-- Total number of stored amplitudes (`numAmpsTotal` of `ffi::Qureg`):
`2^N` for a state-vector, `2^(2N)` for a density matrix. -/
def numAmpsTotal (q : Qureg) : ℕ :=
  if q.isDensityMatrix then 2 ^ (2 * q.numQubits) else 2 ^ q.numQubits

end Qureg

/-- Machine-epsilon threshold below which QuEST treats a probability as
numerically zero (`REAL_EPS` for double precision). -/
def REAL_EPS : ℝ := 1 / 10 ^ 13

/-- Flip bit `t` of an amplitude index. -/
def flipBit (t i : ℕ) : ℕ := i ^^^ 2 ^ t

/-- Exchange bits `x` and `y` of an amplitude index. -/
def swapBits (x y i : ℕ) : ℕ :=
  if i.testBit x = i.testBit y then i else i ^^^ (2 ^ x ^^^ 2 ^ y)

/-- Single-qubit Hadamard on a flat amplitude array: each pair of indices
differing only in bit `t` is replaced by its normalized sum and
difference. -/
def hadamard1 (t : ℕ) (a : ℕ → ℂ) : ℕ → ℂ := fun i =>
  if i.testBit t then (a (flipBit t i) - a i) / (Real.sqrt 2 : ℝ)
  else (a i + a (flipBit t i)) / (Real.sqrt 2 : ℝ)

/-- Single-qubit Pauli-X on a flat amplitude array: exchanges the
amplitudes of each pair of indices differing only in bit `t`. -/
def pauliX1 (t : ℕ) (a : ℕ → ℂ) : ℕ → ℂ := fun i => a (flipBit t i)

/-- Controlled-NOT on a flat amplitude array: applies the bit-`t` flip on
the indices whose control bit `c` is set. -/
def cnot1 (c t : ℕ) (a : ℕ → ℂ) : ℕ → ℂ := fun i =>
  if i.testBit c then a (flipBit t i) else a i

/-- SWAP gate on a flat amplitude array: permutes indices by exchanging
bits `x` and `y`. -/
def swap1 (x y : ℕ) (a : ℕ → ℂ) : ℕ → ℂ := fun i => a (swapBits x y i)

/-- Sign `(-1)^(b_r + b_c)` picked up by a `Z` conjugation of a flattened
`N`-qubit density matrix at qubit `t`: `+1` when the row and column bits
at `t` agree and `-1` otherwise (row bits are flat bits `0..N-1`, column
bits are flat bits `N..2N-1`). -/
def zsign (t N k : ℕ) : ℝ := if k.testBit t = k.testBit (t + N) then 1 else -1

/-- Superoperator `ρ ↦ X_t ρ X_t` on a flattened `N`-qubit density
matrix: flips bit `t` of both the row and the column index. -/
def xConj (t N : ℕ) (a : ℕ → ℂ) : ℕ → ℂ := fun k =>
  a (flipBit (t + N) (flipBit t k))

/-- Superoperator `ρ ↦ Y_t ρ Y_t` on a flattened `N`-qubit density
matrix: entry `(r, c)` becomes `(-1)^(b_r + b_c) ρ(r̄, c̄)`. -/
def yConj (t N : ℕ) (a : ℕ → ℂ) : ℕ → ℂ := fun k =>
  (zsign t N k : ℂ) * a (flipBit (t + N) (flipBit t k))

/-- Superoperator `ρ ↦ Z_t ρ Z_t` on a flattened `N`-qubit density
matrix: entry `(r, c)` is scaled by `(-1)^(b_r + b_c)`. -/
def zConj (t N : ℕ) (a : ℕ → ℂ) : ℕ → ℂ := fun k =>
  (zsign t N k : ℂ) * a k

/-- Conjugation by one Pauli operator (`0 = I`, `1 = X`, `2 = Y`,
`3 = Z`) at qubit `t` of a flattened `N`-qubit density matrix. -/
def pauliConj (op : Fin 4) (t N : ℕ) (a : ℕ → ℂ) : ℕ → ℂ :=
  match op with
  | 0 => a
  | 1 => xConj t N a
  | 2 => yConj t N a
  | 3 => zConj t N a

/-- Outcome encoded by basis-state index `i` on the qubit list `qubits`,
with the list in increasing bit-significance order (head is the least
significant bit of the outcome). -/
def outcomeIndex : List ℕ → ℕ → ℕ
  | [], _ => 0
  | qb :: rest, i => (if i.testBit qb then 1 else 0) + 2 * outcomeIndex rest i

/-- Probability mass consistent with measuring qubit `t` in outcome `0`:
the sum of squared magnitudes over the indices with bit `t` clear for a
state-vector, and the sum of the real parts of the diagonal entries with
row bit `t` clear for a density matrix. -/
def probZero (q : Qureg) (t : ℕ) : ℝ :=
  if q.isDensityMatrix then
    ∑ r ∈ Finset.range q.dim,
      (if r.testBit t then 0 else (q.amps (r * (q.dim + 1))).re)
  else
    ∑ i ∈ Finset.range q.dim,
      (if i.testBit t then 0 else Complex.normSq (q.amps i))

/-- Probability QuEST reports for outcome `oc` of qubit `t`: the mass at
outcome `0`, or one minus it for outcome `1`. -/
def outcomeProbVal (q : Qureg) (t : ℕ) (oc : ℤ) : ℝ :=
  if oc = 0 then probZero q t else 1 - probZero q t

/-- Total probability content of a register: the norm of a state-vector,
or the real part of the trace of a density matrix. -/
def normTotal (q : Qureg) : ℝ :=
  if q.isDensityMatrix then
    ∑ r ∈ Finset.range q.dim, (q.amps (r * (q.dim + 1))).re
  else
    ∑ i ∈ Finset.range q.dim, Complex.normSq (q.amps i)

/-- Amplitude store after collapsing qubit `t` onto outcome `b` with
outcome probability `p`: amplitudes inconsistent with `b` are zeroed and
the survivors are rescaled by `1/sqrt(p)` for a state-vector and by
`1/p` for a density matrix. -/
def collapsedAmps (q : Qureg) (t : ℕ) (b : Bool) (p : ℝ) : ℕ → ℂ :=
  if q.isDensityMatrix then
    fun k =>
      if (k % q.dim).testBit t = b ∧ (k / q.dim).testBit t = b then
        q.amps k / (p : ℂ)
      else 0
  else
    fun i => if i.testBit t = b then q.amps i / (Real.sqrt p : ℝ) else 0

/-- Probability of outcome `o` of the sub-register `qubits` (bit
significance given by list order): summed squared magnitudes, or real
parts of diagonal entries, over the basis states encoding `o`. -/
def subRegisterProb (q : Qureg) (qubits : List ℕ) (o : ℕ) : ℝ :=
  if q.isDensityMatrix then
    ∑ r ∈ Finset.range q.dim,
      (if outcomeIndex qubits r = o then (q.amps (r * (q.dim + 1))).re else 0)
  else
    ∑ i ∈ Finset.range q.dim,
      (if outcomeIndex qubits i = o then Complex.normSq (q.amps i) else 0)

/-- One step of compensated (Kahan) summation: the accumulator carries
the running sum and the running compensation. -/
def kahanStep (acc : ℝ × ℝ) (x : ℝ) : ℝ × ℝ :=
  let y := x - acc.2
  let t := acc.1 + y
  (t, (t - acc.1) - y)

/-- Compensated (Kahan) summation of a list of reals. -/
def kahanSum (xs : List ℝ) : ℝ := (xs.foldl kahanStep (0, 0)).1

/-- A call into a QuEST GPU-copy primitive, recorded symbolically so that
which primitive a wrapper invokes is part of its meaning. -/
inductive FfiCall where
  | copySubstateToGPU (q : Qureg) (startInd numAmps : ℤ)
  | copySubstateFromGPU (q : Qureg) (startInd numAmps : ℤ)

namespace ffi

/-- Modelled from the spec: QuEST's `initClassicalState`, absent from the
crate sources.  Sets the register to the computational basis state
`|state_ind>` (state-vector) or `|state_ind><state_ind|` (density
matrix); fails before any mutation when `state_ind` lies outside
`[0, 2^N)`. -/
def initClassicalState (q : Qureg) (stateInd : ℤ) :
    Except QuestError Unit × Qureg :=
  if 0 ≤ stateInd ∧ stateInd < (2 ^ q.numQubits : ℤ) then
    (.ok (), { q with
      amps := fun k =>
        if k = (if q.isDensityMatrix then stateInd.toNat * (q.dim + 1)
                else stateInd.toNat) then 1 else 0 })
  else (.error .invalidQuESTInputError, q)

/-- Modelled from the spec: QuEST's `initStateFromAmps`, absent from the
crate sources.  Overwrites all `numAmpsTotal` amplitudes from the two
component arrays; the C primitive receives raw pointers and performs no
length validation of its own. -/
def initStateFromAmps (q : Qureg) (reals imags : List ℝ) :
    Except QuestError Unit × Qureg :=
  (.ok (), { q with
    amps := fun k =>
      if k < q.numAmpsTotal then ⟨reals.getD k 0, imags.getD k 0⟩
      else q.amps k })

/-- Modelled from the spec: QuEST's `setAmps`, absent from the crate
sources.  Overwrites `numAmps` state-vector amplitudes starting at
`startInd`; fails before any mutation on a density matrix, on an
out-of-range start index, or when the amplitudes would not fit. -/
def setAmps (q : Qureg) (startInd : ℤ) (reals imags : List ℝ)
    (numAmps : ℤ) : Except QuestError Unit × Qureg :=
  if q.isDensityMatrix = false ∧ 0 ≤ startInd ∧
      startInd < (q.numAmpsTotal : ℤ) ∧ 0 ≤ numAmps ∧
      startInd + numAmps ≤ (q.numAmpsTotal : ℤ) then
    (.ok (), { q with
      amps := fun k =>
        if startInd.toNat ≤ k ∧ k < startInd.toNat + numAmps.toNat then
          ⟨reals.getD (k - startInd.toNat) 0,
           imags.getD (k - startInd.toNat) 0⟩
        else q.amps k })
  else (.error .invalidQuESTInputError, q)

/-- Modelled from the spec: QuEST's `setDensityAmps`, absent from the
crate sources.  Overwrites `numAmps` density-matrix amplitudes starting
at `(startRow, startCol)` proceeding down the flattened store; fails
before any mutation on a state-vector, on out-of-range start indices, or
when the amplitudes would not fit. -/
def setDensityAmps (q : Qureg) (startRow startCol : ℤ)
    (reals imags : List ℝ) (numAmps : ℤ) :
    Except QuestError Unit × Qureg :=
  if q.isDensityMatrix = true ∧ 0 ≤ startRow ∧ startRow < (q.dim : ℤ) ∧
      0 ≤ startCol ∧ startCol < (q.dim : ℤ) ∧ 0 ≤ numAmps ∧
      (startRow.toNat + startCol.toNat * q.dim : ℤ) + numAmps ≤
        (q.numAmpsTotal : ℤ) then
    (.ok (), { q with
      amps := fun k =>
        if startRow.toNat + startCol.toNat * q.dim ≤ k ∧
            k < startRow.toNat + startCol.toNat * q.dim + numAmps.toNat then
          ⟨reals.getD (k - (startRow.toNat + startCol.toNat * q.dim)) 0,
           imags.getD (k - (startRow.toNat + startCol.toNat * q.dim)) 0⟩
        else q.amps k })
  else (.error .invalidQuESTInputError, q)

/-- Modelled from the spec: QuEST's `getProbAmp`, absent from the crate
sources.  Returns the squared magnitude of one state-vector amplitude;
fails on a density matrix or an out-of-range index, without mutating the
register. -/
def getProbAmp (q : Qureg) (index : ℤ) : Except QuestError ℝ × Qureg :=
  if q.isDensityMatrix = false ∧ 0 ≤ index ∧ index < (q.dim : ℤ) then
    (.ok (Complex.normSq (q.amps index.toNat)), q)
  else (.error .invalidQuESTInputError, q)

/-- Modelled from the spec: QuEST's `pauliX`, absent from the crate
sources.  Applies the Pauli-X gate to a valid target qubit (conjugating
a density matrix on rows and columns); fails before any mutation on an
invalid target. -/
def pauliX (q : Qureg) (target : ℤ) : Except QuestError Unit × Qureg :=
  if 0 ≤ target ∧ target < (q.numQubits : ℤ) then
    (.ok (), { q with
      amps :=
        if q.isDensityMatrix then
          pauliX1 (target.toNat + q.numQubits) (pauliX1 target.toNat q.amps)
        else pauliX1 target.toNat q.amps })
  else (.error .invalidQuESTInputError, q)

/-- Modelled from the spec: QuEST's `hadamard`, absent from the crate
sources.  Applies the Hadamard gate to a valid target qubit; fails
before any mutation on an invalid target. -/
def hadamard (q : Qureg) (target : ℤ) : Except QuestError Unit × Qureg :=
  if 0 ≤ target ∧ target < (q.numQubits : ℤ) then
    (.ok (), { q with
      amps :=
        if q.isDensityMatrix then
          hadamard1 (target.toNat + q.numQubits) (hadamard1 target.toNat q.amps)
        else hadamard1 target.toNat q.amps })
  else (.error .invalidQuESTInputError, q)

/-- Modelled from the spec: QuEST's `controlledNot`, absent from the
crate sources.  Applies Pauli-X to the target on the basis states whose
control bit is set; fails before any mutation when either qubit is
invalid or the two coincide. -/
def controlledNot (q : Qureg) (control target : ℤ) :
    Except QuestError Unit × Qureg :=
  if 0 ≤ control ∧ control < (q.numQubits : ℤ) ∧ 0 ≤ target ∧
      target < (q.numQubits : ℤ) ∧ control ≠ target then
    (.ok (), { q with
      amps :=
        if q.isDensityMatrix then
          cnot1 (control.toNat + q.numQubits) (target.toNat + q.numQubits)
            (cnot1 control.toNat target.toNat q.amps)
        else cnot1 control.toNat target.toNat q.amps })
  else (.error .invalidQuESTInputError, q)

/-- Modelled from the spec: QuEST's `swapGate`, absent from the crate
sources.  Exchanges the roles of two distinct valid qubits; fails before
any mutation otherwise. -/
def swapGate (q : Qureg) (qb1 qb2 : ℤ) : Except QuestError Unit × Qureg :=
  if 0 ≤ qb1 ∧ qb1 < (q.numQubits : ℤ) ∧ 0 ≤ qb2 ∧
      qb2 < (q.numQubits : ℤ) ∧ qb1 ≠ qb2 then
    (.ok (), { q with
      amps :=
        if q.isDensityMatrix then
          swap1 (qb1.toNat + q.numQubits) (qb2.toNat + q.numQubits)
            (swap1 qb1.toNat qb2.toNat q.amps)
        else swap1 qb1.toNat qb2.toNat q.amps })
  else (.error .invalidQuESTInputError, q)

/-- Modelled from the spec: QuEST's `calcProbOfOutcome`, absent from the
crate sources.  Returns the probability of measuring `measureQubit` in
`outcome` (computing the `outcome = 1` case as one minus the mass at
`0`), without mutating the register; fails on an invalid qubit or an
outcome other than `0` and `1`. -/
def calcProbOfOutcome (q : Qureg) (measureQubit outcome : ℤ) :
    Except QuestError ℝ × Qureg :=
  if 0 ≤ measureQubit ∧ measureQubit < (q.numQubits : ℤ) ∧
      (outcome = 0 ∨ outcome = 1) then
    (.ok (outcomeProbVal q measureQubit.toNat outcome), q)
  else (.error .invalidQuESTInputError, q)

/-- Modelled from the spec: QuEST's `calcProbOfAllOutcomes`, absent from
the crate sources.  Fills the first `2^(qubits.length)` slots of the
outcome buffer with the probabilities of every outcome of the
sub-register, leaving the register untouched; fails before touching the
buffer when a qubit is invalid or repeated. -/
def calcProbOfAllOutcomes (q : Qureg) (outcomeProbs : List ℝ)
    (qubits : List ℤ) : Except QuestError Unit × List ℝ × Qureg :=
  if (∀ x ∈ qubits, 0 ≤ x ∧ x < (q.numQubits : ℤ)) ∧ qubits.Nodup then
    (.ok (),
     (List.range outcomeProbs.length).map fun k =>
        if k < 2 ^ qubits.length then
          subRegisterProb q (qubits.map Int.toNat) k
        else outcomeProbs.getD k 0,
     q)
  else (.error .invalidQuESTInputError, outcomeProbs, q)

/-- Modelled from the spec: QuEST's `collapseToOutcome`, absent from the
crate sources.  Validates the qubit and the outcome, computes the
outcome probability (as one minus the mass at `0` for outcome `1`),
fails before any mutation when that probability is numerically zero, and
otherwise zeroes the inconsistent amplitudes, renormalizes the survivors
and returns the probability. -/
def collapseToOutcome (q : Qureg) (measureQubit outcome : ℤ) :
    Except QuestError ℝ × Qureg :=
  if 0 ≤ measureQubit ∧ measureQubit < (q.numQubits : ℤ) ∧
      (outcome = 0 ∨ outcome = 1) then
    if outcomeProbVal q measureQubit.toNat outcome < REAL_EPS then
      (.error .invalidQuESTInputError, q)
    else
      (.ok (outcomeProbVal q measureQubit.toNat outcome),
       { q with
         amps := collapsedAmps q measureQubit.toNat (outcome == 1)
           (outcomeProbVal q measureQubit.toNat outcome) })
  else (.error .invalidQuESTInputError, q)

/-- Modelled from the spec: QuEST's `mixDephasing`, absent from the
crate sources.  Requires a density matrix, a valid target and a
probability in `[0, 1/2]`, then applies
`rho ↦ (1 - p) rho + p Z_t rho Z_t`. -/
def mixDephasing (q : Qureg) (target : ℤ) (prob : ℝ) :
    Except QuestError Unit × Qureg :=
  if q.isDensityMatrix = true ∧ 0 ≤ target ∧ target < (q.numQubits : ℤ) ∧
      0 ≤ prob ∧ prob ≤ 1 / 2 then
    (.ok (), { q with
      amps := fun k =>
        (1 - prob : ℝ) * q.amps k +
          (prob : ℝ) * zConj target.toNat q.numQubits q.amps k })
  else (.error .invalidQuESTInputError, q)

/-- Modelled from the spec: QuEST's `mixTwoQubitDephasing`, absent from
the crate sources.  Requires a density matrix, two distinct valid qubits
and a probability in `[0, 3/4]`, then applies
`rho ↦ (1 - p) rho + p/3 (Z_a rho Z_a + Z_b rho Z_b + Z_a Z_b rho Z_a Z_b)`. -/
def mixTwoQubitDephasing (q : Qureg) (qb1 qb2 : ℤ) (prob : ℝ) :
    Except QuestError Unit × Qureg :=
  if q.isDensityMatrix = true ∧ 0 ≤ qb1 ∧ qb1 < (q.numQubits : ℤ) ∧
      0 ≤ qb2 ∧ qb2 < (q.numQubits : ℤ) ∧ qb1 ≠ qb2 ∧
      0 ≤ prob ∧ prob ≤ 3 / 4 then
    (.ok (), { q with
      amps := fun k =>
        (1 - prob : ℝ) * q.amps k +
          (prob / 3 : ℝ) *
            (zConj qb1.toNat q.numQubits q.amps k +
             zConj qb2.toNat q.numQubits q.amps k +
             zConj qb1.toNat q.numQubits (zConj qb2.toNat q.numQubits q.amps) k) })
  else (.error .invalidQuESTInputError, q)

/-- Modelled from the spec: QuEST's `mixDepolarising`, absent from the
crate sources.  Requires a density matrix, a valid target and a
probability in `[0, 3/4]`, then applies
`rho ↦ (1 - p) rho + p/3 (X rho X + Y rho Y + Z rho Z)`. -/
def mixDepolarising (q : Qureg) (target : ℤ) (prob : ℝ) :
    Except QuestError Unit × Qureg :=
  if q.isDensityMatrix = true ∧ 0 ≤ target ∧ target < (q.numQubits : ℤ) ∧
      0 ≤ prob ∧ prob ≤ 3 / 4 then
    (.ok (), { q with
      amps := fun k =>
        (1 - prob : ℝ) * q.amps k +
          (prob / 3 : ℝ) *
            (xConj target.toNat q.numQubits q.amps k +
             yConj target.toNat q.numQubits q.amps k +
             zConj target.toNat q.numQubits q.amps k) })
  else (.error .invalidQuESTInputError, q)

/-- Modelled from the spec: QuEST's `mixTwoQubitDepolarising`, absent
from the crate sources.  Requires a density matrix, two distinct valid
qubits and a probability in `[0, 15/16]`, then mixes the register with
the fifteen non-identity two-qubit Pauli conjugations, each weighted by
`p/15`. -/
def mixTwoQubitDepolarising (q : Qureg) (qb1 qb2 : ℤ) (prob : ℝ) :
    Except QuestError Unit × Qureg :=
  if q.isDensityMatrix = true ∧ 0 ≤ qb1 ∧ qb1 < (q.numQubits : ℤ) ∧
      0 ≤ qb2 ∧ qb2 < (q.numQubits : ℤ) ∧ qb1 ≠ qb2 ∧
      0 ≤ prob ∧ prob ≤ 15 / 16 then
    (.ok (), { q with
      amps := fun k =>
        (1 - prob : ℝ) * q.amps k +
          (prob / 15 : ℝ) *
            ∑ op ∈ (Finset.univ : Finset (Fin 4 × Fin 4)).erase (0, 0),
              pauliConj op.1 qb1.toNat q.numQubits
                (pauliConj op.2 qb2.toNat q.numQubits q.amps) k })
  else (.error .invalidQuESTInputError, q)

/-- Modelled from the spec: QuEST's `mixDamping`, absent from the crate
sources.  Requires a density matrix, a valid target and a probability in
`[0, 1]`, then applies the amplitude-damping Kraus map
`rho ↦ K_0 rho K_0^† + K_1 rho K_1^†`. -/
def mixDamping (q : Qureg) (target : ℤ) (prob : ℝ) :
    Except QuestError Unit × Qureg :=
  if q.isDensityMatrix = true ∧ 0 ≤ target ∧ target < (q.numQubits : ℤ) ∧
      0 ≤ prob ∧ prob ≤ 1 then
    (.ok (), { q with
      amps := fun k =>
        match k.testBit target.toNat, k.testBit (target.toNat + q.numQubits) with
        | false, false =>
            q.amps k + (prob : ℝ) *
              q.amps (flipBit (target.toNat + q.numQubits) (flipBit target.toNat k))
        | true, true => (1 - prob : ℝ) * q.amps k
        | _, _ => (Real.sqrt (1 - prob) : ℝ) * q.amps k })
  else (.error .invalidQuESTInputError, q)

/-- Modelled from the spec: QuEST's `calcTotalProb`, absent from the
crate sources.  Computes the norm of a state-vector, or the real part of
the trace of a density matrix, by compensated (Kahan) summation; it
performs no validation and never raises. -/
def calcTotalProb (q : Qureg) : ℝ :=
  if q.isDensityMatrix then
    kahanSum ((List.range q.dim).map fun r => (q.amps (r * (q.dim + 1))).re)
  else
    kahanSum ((List.range q.dim).map fun i => Complex.normSq (q.amps i))

end ffi

/-- Wrapper `Qureg::init_classical_state` (`qureg.rs:388`): forwards to
the QuEST primitive through the exception adapter. -/
def init_classical_state (q : Qureg) (state_ind : ℤ) :
    Except QuestError Unit × Qureg :=
  ffi.initClassicalState q state_ind

/-- Wrapper `Qureg::init_zero_state` (`qureg.rs:286`): infallible
re-initialization to the all-zeros basis state. -/
def init_zero_state (q : Qureg) : Qureg :=
  { q with amps := fun k => if k = 0 then 1 else 0 }

/-- Wrapper `Qureg::init_state_from_amps` (`qureg.rs:512`): returns
`ArrayLengthError` when either component slice has fewer than
`num_amps_total` elements, and otherwise forwards to the QuEST
primitive. -/
def init_state_from_amps (q : Qureg) (reals imags : List ℝ) :
    Except QuestError Unit × Qureg :=
  if reals.length < q.numAmpsTotal ∨ imags.length < q.numAmpsTotal then
    (.error .arrayLengthError, q)
  else ffi.initStateFromAmps q reals imags

/-- Wrapper `Qureg::set_amps` (`qureg.rs:596`): returns
`ArrayLengthError` when the component slices differ in length, and
otherwise forwards to the QuEST primitive with `num_amps = reals.len()`. -/
def set_amps (q : Qureg) (start_ind : ℤ) (reals imags : List ℝ) :
    Except QuestError Unit × Qureg :=
  if reals.length ≠ imags.length then (.error .arrayLengthError, q)
  else ffi.setAmps q start_ind reals imags reals.length

/-- Wrapper `Qureg::set_density_amps` (`qureg.rs:677`): returns
`ArrayLengthError` when the component slices differ in length, and
otherwise forwards to the QuEST primitive with `num_amps = reals.len()`. -/
def set_density_amps (q : Qureg) (start_row start_col : ℤ)
    (reals imags : List ℝ) : Except QuestError Unit × Qureg :=
  if reals.length ≠ imags.length then (.error .arrayLengthError, q)
  else ffi.setDensityAmps q start_row start_col reals imags reals.length

/-- Wrapper `Qureg::get_prob_amp` (`qureg.rs:1447`): forwards to the
QuEST primitive through the exception adapter. -/
def get_prob_amp (q : Qureg) (index : ℤ) : Except QuestError ℝ × Qureg :=
  ffi.getProbAmp q index

/-- Wrapper `Qureg::pauli_x` (`qureg.rs:2312`). -/
def pauli_x (q : Qureg) (target_qubit : ℤ) : Except QuestError Unit × Qureg :=
  ffi.pauliX q target_qubit

/-- Wrapper `Qureg::hadamard` (`qureg.rs:2443`). -/
def hadamard (q : Qureg) (target_qubit : ℤ) : Except QuestError Unit × Qureg :=
  ffi.hadamard q target_qubit

/-- Wrapper `Qureg::controlled_not` (`qureg.rs:2500`). -/
def controlled_not (q : Qureg) (control_qubit target_qubit : ℤ) :
    Except QuestError Unit × Qureg :=
  ffi.controlledNot q control_qubit target_qubit

/-- Wrapper `Qureg::swap_gate` (`qureg.rs:3797`). -/
def swap_gate (q : Qureg) (qubit1 qubit2 : ℤ) :
    Except QuestError Unit × Qureg :=
  ffi.swapGate q qubit1 qubit2

/-- Wrapper `Qureg::calc_prob_of_outcome` (`qureg.rs:2753`). -/
def calc_prob_of_outcome (q : Qureg) (measure_qubit outcome : ℤ) :
    Except QuestError ℝ × Qureg :=
  ffi.calcProbOfOutcome q measure_qubit outcome

/-- Wrapper `Qureg::calc_prob_of_all_outcomes` (`qureg.rs:2824`): returns
`ArrayLengthError` before calling into QuEST when the outcome buffer is
shorter than `2^(qubits.len())`. -/
def calc_prob_of_all_outcomes (q : Qureg) (outcome_probs : List ℝ)
    (qubits : List ℤ) : Except QuestError Unit × List ℝ × Qureg :=
  if outcome_probs.length < 2 ^ qubits.length then
    (.error .arrayLengthError, outcome_probs, q)
  else ffi.calcProbOfAllOutcomes q outcome_probs qubits

/-- Wrapper `Qureg::collapse_to_outcome` (`qureg.rs:2902`). -/
def collapse_to_outcome (q : Qureg) (measure_qubit outcome : ℤ) :
    Except QuestError ℝ × Qureg :=
  ffi.collapseToOutcome q measure_qubit outcome

/-- Wrapper `Qureg::mix_dephasing` (`qureg.rs:3262`). -/
def mix_dephasing (q : Qureg) (target_qubit : ℤ) (prob : ℝ) :
    Except QuestError Unit × Qureg :=
  ffi.mixDephasing q target_qubit prob

/-- Wrapper `Qureg::mix_two_qubit_dephasing` (`qureg.rs:3326`). -/
def mix_two_qubit_dephasing (q : Qureg) (qubit1 qubit2 : ℤ) (prob : ℝ) :
    Except QuestError Unit × Qureg :=
  ffi.mixTwoQubitDephasing q qubit1 qubit2 prob

/-- Wrapper `Qureg::mix_depolarising` (`qureg.rs:3387`). -/
def mix_depolarising (q : Qureg) (target_qubit : ℤ) (prob : ℝ) :
    Except QuestError Unit × Qureg :=
  ffi.mixDepolarising q target_qubit prob

/-- Wrapper `Qureg::mix_two_qubit_depolarising` (`qureg.rs:3514`). -/
def mix_two_qubit_depolarising (q : Qureg) (qubit1 qubit2 : ℤ) (prob : ℝ) :
    Except QuestError Unit × Qureg :=
  ffi.mixTwoQubitDepolarising q qubit1 qubit2 prob

/-- Wrapper `Qureg::mix_damping` (`qureg.rs:3455`). -/
def mix_damping (q : Qureg) (target_qubit : ℤ) (prob : ℝ) :
    Except QuestError Unit × Qureg :=
  ffi.mixDamping q target_qubit prob

/-- Wrapper `Qureg::calc_total_prob` (`qureg.rs:1533`): plain `Qreal`
return value, no error path to the caller. -/
def calc_total_prob (q : Qureg) : ℝ :=
  ffi.calcTotalProb q

/-- Wrapper `Qureg::copy_substate_to_gpu` (`qureg.rs:1243`), recorded as
the QuEST primitive it invokes. -/
def copy_substate_to_gpu (q : Qureg) (start_ind num_amps : ℤ) :
    List FfiCall :=
  [FfiCall.copySubstateToGPU q start_ind num_amps]

/-- Wrapper `Qureg::copy_substate_from_gpu` (`qureg.rs:1292`), recorded
as the QuEST primitive it invokes: the body at `qureg.rs:1298` calls
`ffi::copySubstateToGPU`. -/
def copy_substate_from_gpu (q : Qureg) (start_ind num_amps : ℤ) :
    List FfiCall :=
  [FfiCall.copySubstateToGPU q start_ind num_amps]

/-- An operation is all-or-nothing when every erroring call leaves the
register exactly as it was. -/
def allOrNothing {α : Type} (f : Qureg → Except QuestError α × Qureg) : Prop :=
  ∀ q : Qureg, (∃ e, (f q).1 = .error e) → (f q).2 = q

end QuestBind

namespace QuestBind

theorem flipBit_flipBit (t i : ℕ) : flipBit t (flipBit t i) = i :=
  Nat.xor_cancel_right _ _

theorem flipBit_comm (x y i : ℕ) :
    flipBit x (flipBit y i) = flipBit y (flipBit x i) := by
  simp only [flipBit, Nat.xor_assoc]
  rw [Nat.xor_comm (2 ^ y) (2 ^ x)]

theorem testBit_xor_of_mask (i m u : ℕ) (h : m.testBit u = false) :
    (i ^^^ m).testBit u = i.testBit u := by
  simp [Nat.testBit_xor, h]

theorem swapMask_testBit (x y u : ℕ) (hx : u ≠ x) (hy : u ≠ y) :
    ((2 ^ x ^^^ 2 ^ y : ℕ)).testBit u = false := by
  simp [Nat.testBit_xor, Nat.testBit_two_pow_of_ne (Ne.symm hx),
    Nat.testBit_two_pow_of_ne (Ne.symm hy)]

theorem swapMask_testBit_self (x y : ℕ) (hxy : x ≠ y) :
    ((2 ^ x ^^^ 2 ^ y : ℕ)).testBit x = true := by
  simp [Nat.testBit_xor, Nat.testBit_two_pow_self,
    Nat.testBit_two_pow_of_ne (Ne.symm hxy)]

theorem testBit_swapBits_of_ne (x y u i : ℕ) (hx : u ≠ x) (hy : u ≠ y) :
    (swapBits x y i).testBit u = i.testBit u := by
  unfold swapBits
  split
  · rfl
  · exact testBit_xor_of_mask i _ u (swapMask_testBit x y u hx hy)

theorem swapBits_swapBits (x y i : ℕ) (hxy : x ≠ y) :
    swapBits x y (swapBits x y i) = i := by
  by_cases h : i.testBit x = i.testBit y
  · unfold swapBits
    rw [if_pos h, if_pos h]
  · have h1 : (i ^^^ (2 ^ x ^^^ 2 ^ y)).testBit x = !(i.testBit x) := by
      rw [Nat.testBit_xor, swapMask_testBit_self x y hxy, Bool.xor_true]
    have h2 : (i ^^^ (2 ^ x ^^^ 2 ^ y)).testBit y = !(i.testBit y) := by
      rw [Nat.testBit_xor, Nat.xor_comm (2 ^ x) (2 ^ y),
        swapMask_testBit_self y x (Ne.symm hxy), Bool.xor_true]
    unfold swapBits
    rw [if_neg h, if_neg (by simp [h1, h2, h]), Nat.xor_cancel_right]

theorem swapBits_eq_xor (x y i : ℕ) :
    swapBits x y i =
      i ^^^ (if i.testBit x = i.testBit y then 0 else 2 ^ x ^^^ 2 ^ y) := by
  unfold swapBits
  split <;> simp

theorem swapBits_comm (x y u v i : ℕ) (hxu : x ≠ u) (hxv : x ≠ v)
    (hyu : y ≠ u) (hyv : y ≠ v) :
    swapBits x y (swapBits u v i) = swapBits u v (swapBits x y i) := by
  have h1 : (swapBits u v i).testBit x = i.testBit x :=
    testBit_swapBits_of_ne u v x i hxu hxv
  have h2 : (swapBits u v i).testBit y = i.testBit y :=
    testBit_swapBits_of_ne u v y i hyu hyv
  have h3 : (swapBits x y i).testBit u = i.testBit u :=
    testBit_swapBits_of_ne x y u i (Ne.symm hxu) (Ne.symm hyu)
  have h4 : (swapBits x y i).testBit v = i.testBit v :=
    testBit_swapBits_of_ne x y v i (Ne.symm hxv) (Ne.symm hyv)
  rw [swapBits_eq_xor x y (swapBits u v i), h1, h2,
    swapBits_eq_xor u v (swapBits x y i), h3, h4,
    swapBits_eq_xor u v i, swapBits_eq_xor x y i, Nat.xor_assoc,
    Nat.xor_assoc,
    Nat.xor_comm (if i.testBit u = i.testBit v then 0 else 2 ^ u ^^^ 2 ^ v)
      (if i.testBit x = i.testBit y then 0 else 2 ^ x ^^^ 2 ^ y)]

theorem kahan_foldl (xs : List ℝ) :
    ∀ s c : ℝ, (xs.foldl kahanStep (s, c)).1 - (xs.foldl kahanStep (s, c)).2 =
      s - c + xs.sum := by
  induction xs with
  | nil => intro s c; simp
  | cons x xs ih =>
      intro s c
      rw [List.foldl_cons, List.sum_cons, kahanStep]
      rw [ih]
      ring

theorem kahan_foldl_snd (xs : List ℝ) :
    ∀ s c : ℝ, (xs.foldl kahanStep (s, c)).2 = 0 ∨
      xs.foldl kahanStep (s, c) = (s, c) := by
  induction xs with
  | nil => intro s c; right; rfl
  | cons x xs ih =>
      intro s c
      rw [List.foldl_cons]
      rcases ih (kahanStep (s, c) x).1 (kahanStep (s, c) x).2 with h | h
      · left; exact h
      · left
        rw [h]
        show ((s + (x - c)) - s) - (x - c) = 0
        ring

theorem kahanSum_eq_sum (xs : List ℝ) : kahanSum xs = xs.sum := by
  have h1 := kahan_foldl xs 0 0
  rcases kahan_foldl_snd xs 0 0 with h2 | h2
  · unfold kahanSum
    rw [h2] at h1
    linarith
  · unfold kahanSum
    rw [h2] at h1 ⊢
    simpa using h1

theorem list_range_map_sum (f : ℕ → ℝ) (n : ℕ) :
    ((List.range n).map f).sum = ∑ i ∈ Finset.range n, f i := by
  induction n with
  | zero => simp
  | succ n ih =>
      rw [List.range_succ, Finset.sum_range_succ]
      simp [ih]

/-- C9: `calc_total_prob` returns the norm of a state-vector and the
real part of the trace of a density matrix — the value `normTotal` —
although it is computed by compensated (Kahan) summation; its return
type is a plain real, so no error ever reaches the caller. -/
theorem calc_total_prob_spec (q : Qureg) : calc_total_prob q = normTotal q := by
  unfold calc_total_prob ffi.calcTotalProb normTotal
  by_cases h : q.isDensityMatrix <;>
    simp [h, kahanSum_eq_sum, list_range_map_sum]

/-- C10: `copy_substate_from_gpu` performs exactly the same operation as
`copy_substate_to_gpu` — both invoke the `copySubstateToGPU` primitive —
and the from-GPU primitive is never invoked, so no data is copied from
GPU memory back to RAM. -/
theorem copy_substate_from_gpu_is_to_gpu :
    copy_substate_from_gpu = copy_substate_to_gpu ∧
      ∀ (q q2 : Qureg) (s n s2 n2 : ℤ),
        FfiCall.copySubstateFromGPU q2 s2 n2 ∉ copy_substate_from_gpu q s n := by
  refine ⟨rfl, ?_⟩
  intro q q2 s n s2 n2 h
  simp [copy_substate_from_gpu] at h

/-- C5: the probability queries `calc_prob_of_outcome` and
`calc_prob_of_all_outcomes` never mutate the register, and a call of
`calc_prob_of_all_outcomes` whose outcome buffer holds fewer than
`2^(qubits.len())` entries returns `ArrayLengthError` with the buffer
and the register untouched. -/
theorem calc_prob_queries_pure :
    (∀ (q : Qureg) (mq oc : ℤ), (calc_prob_of_outcome q mq oc).2 = q) ∧
    (∀ (q : Qureg) (buf : List ℝ) (qs : List ℤ),
        (calc_prob_of_all_outcomes q buf qs).2.2 = q) ∧
    (∀ (q : Qureg) (buf : List ℝ) (qs : List ℤ),
        buf.length < 2 ^ qs.length →
          calc_prob_of_all_outcomes q buf qs =
            (.error .arrayLengthError, buf, q)) := by
  refine ⟨?_, ?_, ?_⟩
  · intro q mq oc
    unfold calc_prob_of_outcome ffi.calcProbOfOutcome
    split <;> rfl
  · intro q buf qs
    unfold calc_prob_of_all_outcomes ffi.calcProbOfAllOutcomes
    split
    · rfl
    · split <;> rfl
  · intro q buf qs h
    unfold calc_prob_of_all_outcomes
    rw [if_pos h]

/-- Witness for C5 at a concrete input: an empty buffer for a one-qubit
subset is rejected without touching anything. -/
theorem calc_prob_queries_pure_witness :
    calc_prob_of_all_outcomes ⟨1, false, fun _ => 0⟩ [] [0] =
      (.error .arrayLengthError, [], ⟨1, false, fun _ => 0⟩) :=
  calc_prob_queries_pure.2.2 ⟨1, false, fun _ => 0⟩ [] [0] (by simp)

/-- C4 fails on the code: `init_state_from_amps` accepts component
slices that differ in length (and exceed the register's capacity)
whenever both hold at least `num_amps_total` elements — the Rust check
at `qureg.rs:518` only rejects too-short slices, and the C primitive
receives raw pointers, so no `ArrayLengthError` is produced. -/
theorem init_state_from_amps_mismatch_accepted :
    (([1, 0, 0] : List ℝ).length ≠ ([0, 0] : List ℝ).length) ∧
    (init_state_from_amps ⟨1, false, fun _ => 0⟩ [1, 0, 0] [0, 0]).1 =
      .ok () := by
  constructor
  · simp
  · unfold init_state_from_amps ffi.initStateFromAmps
    rw [if_neg]
    simp [Qureg.numAmpsTotal]

/-- C4 (amended): `set_amps` and `set_density_amps` return
`ArrayLengthError` exactly when the component slices differ in length,
while `init_state_from_amps` returns it exactly when either slice holds
fewer than `num_amps_total` elements; capacity violations surface as
`InvalidQuESTInputError` from QuEST, not as `ArrayLengthError`. -/
theorem amp_setters_array_length_spec (q : Qureg) (start row col : ℤ)
    (reals imags : List ℝ) :
    ((init_state_from_amps q reals imags).1 = .error .arrayLengthError ↔
      reals.length < q.numAmpsTotal ∨ imags.length < q.numAmpsTotal) ∧
    ((set_amps q start reals imags).1 = .error .arrayLengthError ↔
      reals.length ≠ imags.length) ∧
    ((set_density_amps q row col reals imags).1 = .error .arrayLengthError ↔
      reals.length ≠ imags.length) := by
  refine ⟨?_, ?_, ?_⟩
  · unfold init_state_from_amps ffi.initStateFromAmps
    split_ifs with h <;> simp [h]
  · unfold set_amps ffi.setAmps
    split_ifs with h1 h2 <;> simp [h1]
  · unfold set_density_amps ffi.setDensityAmps
    split_ifs with h1 h2 <;> simp [h1]

/-- C3: every noise channel demands a density matrix — a state-vector
argument is rejected with `InvalidQuESTInputError` — and each channel
rejects any probability above its maximal-mixing bound (`1/2` for
single-qubit dephasing, `3/4` for two-qubit dephasing and single-qubit
depolarising, `15/16` for two-qubit depolarising, `1` for damping). -/
theorem mix_channels_validation (q : Qureg) (t q1 q2 : ℤ) (p : ℝ) :
    (q.isDensityMatrix = false →
      (mix_dephasing q t p).1 = .error .invalidQuESTInputError ∧
      (mix_two_qubit_dephasing q q1 q2 p).1 = .error .invalidQuESTInputError ∧
      (mix_depolarising q t p).1 = .error .invalidQuESTInputError ∧
      (mix_two_qubit_depolarising q q1 q2 p).1 = .error .invalidQuESTInputError ∧
      (mix_damping q t p).1 = .error .invalidQuESTInputError) ∧
    (1 / 2 < p →
      (mix_dephasing q t p).1 = .error .invalidQuESTInputError) ∧
    (3 / 4 < p →
      (mix_two_qubit_dephasing q q1 q2 p).1 = .error .invalidQuESTInputError) ∧
    (3 / 4 < p →
      (mix_depolarising q t p).1 = .error .invalidQuESTInputError) ∧
    (15 / 16 < p →
      (mix_two_qubit_depolarising q q1 q2 p).1 = .error .invalidQuESTInputError) ∧
    (1 < p →
      (mix_damping q t p).1 = .error .invalidQuESTInputError) := by
  refine ⟨?_, ?_, ?_, ?_, ?_, ?_⟩
  · intro hd
    have hne : ¬ q.isDensityMatrix = true := by simp [hd]
    refine ⟨?_, ?_, ?_, ?_, ?_⟩
    · unfold mix_dephasing ffi.mixDephasing
      rw [if_neg (fun h => hne h.1)]
    · unfold mix_two_qubit_dephasing ffi.mixTwoQubitDephasing
      rw [if_neg (fun h => hne h.1)]
    · unfold mix_depolarising ffi.mixDepolarising
      rw [if_neg (fun h => hne h.1)]
    · unfold mix_two_qubit_depolarising ffi.mixTwoQubitDepolarising
      rw [if_neg (fun h => hne h.1)]
    · unfold mix_damping ffi.mixDamping
      rw [if_neg (fun h => hne h.1)]
  · intro hp
    unfold mix_dephasing ffi.mixDephasing
    rw [if_neg (fun h => absurd h.2.2.2.2 (not_le.mpr hp))]
  · intro hp
    unfold mix_two_qubit_dephasing ffi.mixTwoQubitDephasing
    rw [if_neg (fun h => absurd h.2.2.2.2.2.2.2 (not_le.mpr hp))]
  · intro hp
    unfold mix_depolarising ffi.mixDepolarising
    rw [if_neg (fun h => absurd h.2.2.2.2 (not_le.mpr hp))]
  · intro hp
    unfold mix_two_qubit_depolarising ffi.mixTwoQubitDepolarising
    rw [if_neg (fun h => absurd h.2.2.2.2.2.2.2 (not_le.mpr hp))]
  · intro hp
    unfold mix_damping ffi.mixDamping
    rw [if_neg (fun h => absurd h.2.2.2.2 (not_le.mpr hp))]

/-- Witness for C3 at concrete inputs: a state-vector is rejected by
`mix_dephasing`, and each channel rejects a probability just above its
bound. -/
theorem mix_channels_validation_witness :
    (mix_dephasing ⟨1, false, fun _ => 0⟩ 0 0).1 =
      .error .invalidQuESTInputError ∧
    (mix_dephasing ⟨1, true, fun _ => 0⟩ 0 (3 / 5)).1 =
      .error .invalidQuESTInputError ∧
    (mix_two_qubit_dephasing ⟨2, true, fun _ => 0⟩ 0 1 (4 / 5)).1 =
      .error .invalidQuESTInputError ∧
    (mix_depolarising ⟨1, true, fun _ => 0⟩ 0 (4 / 5)).1 =
      .error .invalidQuESTInputError ∧
    (mix_two_qubit_depolarising ⟨2, true, fun _ => 0⟩ 0 1 (31 / 32)).1 =
      .error .invalidQuESTInputError ∧
    (mix_damping ⟨1, true, fun _ => 0⟩ 0 (3 / 2)).1 =
      .error .invalidQuESTInputError :=
  ⟨((mix_channels_validation ⟨1, false, fun _ => 0⟩ 0 0 0 0).1 rfl).1,
   (mix_channels_validation ⟨1, true, fun _ => 0⟩ 0 0 0 (3 / 5)).2.1
     (by norm_num),
   (mix_channels_validation ⟨2, true, fun _ => 0⟩ 0 0 1 (4 / 5)).2.2.1
     (by norm_num),
   (mix_channels_validation ⟨1, true, fun _ => 0⟩ 0 0 0 (4 / 5)).2.2.2.1
     (by norm_num),
   (mix_channels_validation ⟨2, true, fun _ => 0⟩ 0 0 1 (31 / 32)).2.2.2.2.1
     (by norm_num),
   (mix_channels_validation ⟨1, true, fun _ => 0⟩ 0 0 0 (3 / 2)).2.2.2.2.2
     (by norm_num)⟩

/-- C1: the fallible register operations are all-or-nothing — an
erroring call leaves the register exactly as it was — and in particular
`init_classical_state` with an index outside `[0, 2^N)` returns
`InvalidQuESTInputError` and leaves every amplitude unchanged. -/
theorem fallible_ops_all_or_nothing :
    (∀ (q : Qureg) (ind : ℤ), ind < 0 ∨ (2 ^ q.numQubits : ℤ) ≤ ind →
       init_classical_state q ind = (.error .invalidQuESTInputError, q)) ∧
    (∀ ind : ℤ, allOrNothing (init_classical_state · ind)) ∧
    (∀ reals imags : List ℝ, allOrNothing (init_state_from_amps · reals imags)) ∧
    (∀ (s : ℤ) (reals imags : List ℝ), allOrNothing (set_amps · s reals imags)) ∧
    (∀ (r c : ℤ) (reals imags : List ℝ),
      allOrNothing (set_density_amps · r c reals imags)) ∧
    (∀ i : ℤ, allOrNothing (get_prob_amp · i)) ∧
    (∀ t : ℤ, allOrNothing (pauli_x · t)) ∧
    (∀ t : ℤ, allOrNothing (hadamard · t)) ∧
    (∀ c t : ℤ, allOrNothing (controlled_not · c t)) ∧
    (∀ a b : ℤ, allOrNothing (swap_gate · a b)) ∧
    (∀ mq oc : ℤ, allOrNothing (calc_prob_of_outcome · mq oc)) ∧
    (∀ (buf : List ℝ) (qs : List ℤ), allOrNothing (fun q =>
        ((calc_prob_of_all_outcomes q buf qs).1,
         (calc_prob_of_all_outcomes q buf qs).2.2))) ∧
    (∀ mq oc : ℤ, allOrNothing (collapse_to_outcome · mq oc)) ∧
    (∀ (t : ℤ) (p : ℝ), allOrNothing (mix_dephasing · t p)) ∧
    (∀ (a b : ℤ) (p : ℝ), allOrNothing (mix_two_qubit_dephasing · a b p)) ∧
    (∀ (t : ℤ) (p : ℝ), allOrNothing (mix_depolarising · t p)) ∧
    (∀ (a b : ℤ) (p : ℝ), allOrNothing (mix_two_qubit_depolarising · a b p)) ∧
    (∀ (t : ℤ) (p : ℝ), allOrNothing (mix_damping · t p)) := by
  refine ⟨?_, ?_, ?_, ?_, ?_, ?_, ?_, ?_, ?_, ?_, ?_, ?_, ?_, ?_, ?_, ?_,
    ?_, ?_⟩
  · intro q ind h
    unfold init_classical_state ffi.initClassicalState
    rw [if_neg (by rcases h with h | h <;> omega)]
  all_goals
    intros
    intro q he
    obtain ⟨e, he⟩ := he
    simp only [init_classical_state, init_state_from_amps, set_amps,
      set_density_amps, get_prob_amp, pauli_x, hadamard, controlled_not,
      swap_gate, calc_prob_of_outcome, calc_prob_of_all_outcomes,
      collapse_to_outcome, mix_dephasing, mix_two_qubit_dephasing,
      mix_depolarising, mix_two_qubit_depolarising, mix_damping,
      ffi.initClassicalState, ffi.initStateFromAmps, ffi.setAmps,
      ffi.setDensityAmps, ffi.getProbAmp, ffi.pauliX, ffi.hadamard,
      ffi.controlledNot, ffi.swapGate, ffi.calcProbOfOutcome,
      ffi.calcProbOfAllOutcomes, ffi.collapseToOutcome, ffi.mixDephasing,
      ffi.mixTwoQubitDephasing, ffi.mixDepolarising,
      ffi.mixTwoQubitDepolarising, ffi.mixDamping] at he ⊢
    split_ifs at he ⊢ <;> simp_all

/-- Witness for C1 at a concrete input: index `4` is out of range for a
two-qubit state-vector and the failing call returns the register
untouched. -/
theorem fallible_ops_all_or_nothing_witness :
    init_classical_state ⟨2, false, fun _ => 0⟩ 4 =
      (.error .invalidQuESTInputError, ⟨2, false, fun _ => 0⟩) :=
  fallible_ops_all_or_nothing.1 ⟨2, false, fun _ => 0⟩ 4 (Or.inr (by norm_num))

end QuestBind

namespace QuestBind

theorem pauliX1_pauliX1 (t : ℕ) (a : ℕ → ℂ) : pauliX1 t (pauliX1 t a) = a :=
  funext fun i => congrArg a (flipBit_flipBit t i)

theorem pauliX1_comm (u v : ℕ) (a : ℕ → ℂ) :
    pauliX1 u (pauliX1 v a) = pauliX1 v (pauliX1 u a) :=
  funext fun i => congrArg a (flipBit_comm v u i)

theorem swap1_swap1 (x y : ℕ) (hxy : x ≠ y) (a : ℕ → ℂ) :
    swap1 x y (swap1 x y a) = a :=
  funext fun i => congrArg a (swapBits_swapBits x y i hxy)

theorem swap1_comm (x y u v : ℕ) (hxu : x ≠ u) (hxv : x ≠ v) (hyu : y ≠ u)
    (hyv : y ≠ v) (a : ℕ → ℂ) :
    swap1 x y (swap1 u v a) = swap1 u v (swap1 x y a) :=
  funext fun i => congrArg a (swapBits_comm u v x y i (Ne.symm hxu)
    (Ne.symm hyu) (Ne.symm hxv) (Ne.symm hyv))

/-- C8: applying `pauli_x` twice to the same valid target qubit, and
applying `swap_gate` twice to the same pair of distinct valid qubits,
restores the original register exactly; both calls succeed. -/
theorem pauli_x_swap_gate_involutive (q : Qureg) (t a b : ℤ)
    (ht0 : 0 ≤ t) (ht1 : t < (q.numQubits : ℤ))
    (ha0 : 0 ≤ a) (ha1 : a < (q.numQubits : ℤ))
    (hb0 : 0 ≤ b) (hb1 : b < (q.numQubits : ℤ)) (hab : a ≠ b) :
    (pauli_x q t).1 = .ok () ∧
    (pauli_x (pauli_x q t).2 t).1 = .ok () ∧
    (pauli_x (pauli_x q t).2 t).2 = q ∧
    (swap_gate q a b).1 = .ok () ∧
    (swap_gate (swap_gate q a b).2 a b).1 = .ok () ∧
    (swap_gate (swap_gate q a b).2 a b).2 = q := by
  have hct : 0 ≤ t ∧ t < (q.numQubits : ℤ) := ⟨ht0, ht1⟩
  have hcs : 0 ≤ a ∧ a < (q.numQubits : ℤ) ∧ 0 ≤ b ∧
      b < (q.numQubits : ℤ) ∧ a ≠ b := ⟨ha0, ha1, hb0, hb1, hab⟩
  have hab' : a.toNat ≠ b.toNat := by omega
  have habN : a.toNat + q.numQubits ≠ b.toNat + q.numQubits := by omega
  have d1 : a.toNat ≠ a.toNat + q.numQubits := by omega
  have d2 : a.toNat ≠ b.toNat + q.numQubits := by omega
  have d3 : b.toNat ≠ a.toNat + q.numQubits := by omega
  have d4 : b.toNat ≠ b.toNat + q.numQubits := by omega
  refine ⟨?_, ?_, ?_, ?_, ?_, ?_⟩
  · simp only [pauli_x, ffi.pauliX]
    rw [if_pos hct]
  · simp only [pauli_x, ffi.pauliX]
    rw [if_pos hct]
    dsimp only
    rw [if_pos hct]
  · simp only [pauli_x, ffi.pauliX]
    rw [if_pos hct]
    dsimp only
    rw [if_pos hct]
    dsimp only
    refine Qureg.ext rfl rfl ?_
    dsimp only
    by_cases hd : q.isDensityMatrix = true
    · rw [if_pos hd, if_pos hd,
        pauliX1_comm t.toNat (t.toNat + q.numQubits) (pauliX1 t.toNat q.amps),
        pauliX1_pauliX1 t.toNat q.amps,
        pauliX1_pauliX1 (t.toNat + q.numQubits) q.amps]
    · rw [if_neg hd, if_neg hd, pauliX1_pauliX1 t.toNat q.amps]
  · simp only [swap_gate, ffi.swapGate]
    rw [if_pos hcs]
  · simp only [swap_gate, ffi.swapGate]
    rw [if_pos hcs]
    dsimp only
    rw [if_pos hcs]
  · simp only [swap_gate, ffi.swapGate]
    rw [if_pos hcs]
    dsimp only
    rw [if_pos hcs]
    dsimp only
    refine Qureg.ext rfl rfl ?_
    dsimp only
    by_cases hd : q.isDensityMatrix = true
    · rw [if_pos hd, if_pos hd,
        swap1_comm a.toNat b.toNat (a.toNat + q.numQubits)
          (b.toNat + q.numQubits) d1 d2 d3 d4
          (swap1 a.toNat b.toNat q.amps),
        swap1_swap1 a.toNat b.toNat hab' q.amps,
        swap1_swap1 (a.toNat + q.numQubits) (b.toNat + q.numQubits) habN
          q.amps]
    · rw [if_neg hd, if_neg hd, swap1_swap1 a.toNat b.toNat hab' q.amps]

/-- Witness for C8 at a concrete input: qubit `0` and the pair `(0, 1)`
of a two-qubit register with a nontrivial amplitude array. -/
theorem pauli_x_swap_gate_involutive_witness :
    (pauli_x (pauli_x ⟨2, false, fun i => i⟩ 0).2 0).2 =
      ⟨2, false, fun i => i⟩ ∧
    (swap_gate (swap_gate ⟨2, false, fun i => i⟩ 0 1).2 0 1).2 =
      ⟨2, false, fun i => i⟩ :=
  ⟨(pauli_x_swap_gate_involutive ⟨2, false, fun i => i⟩ 0 0 1
      (by norm_num) (by norm_num) (by norm_num) (by norm_num)
      (by norm_num) (by norm_num) (by norm_num)).2.2.1,
   (pauli_x_swap_gate_involutive ⟨2, false, fun i => i⟩ 0 0 1
      (by norm_num) (by norm_num) (by norm_num) (by norm_num)
      (by norm_num) (by norm_num) (by norm_num)).2.2.2.2.2⟩

end QuestBind

namespace QuestBind

/-- C6: on a two-qubit state-vector register, the sequence
`init_zero_state`, `hadamard(0)`, `controlled_not(0, 1)` prepares a Bell
state whose probability amplitudes are `1/2` at indices `0` and `3` and
`0` at indices `1` and `2`; every call succeeds. -/
theorem bell_state_probs (a : ℕ → ℂ) :
    (hadamard (init_zero_state ⟨2, false, a⟩) 0).1 = .ok () ∧
    (controlled_not (hadamard (init_zero_state ⟨2, false, a⟩) 0).2 0 1).1 =
      .ok () ∧
    (get_prob_amp
      (controlled_not (hadamard (init_zero_state ⟨2, false, a⟩) 0).2 0 1).2
      0).1 = .ok (1 / 2) ∧
    (get_prob_amp
      (controlled_not (hadamard (init_zero_state ⟨2, false, a⟩) 0).2 0 1).2
      3).1 = .ok (1 / 2) ∧
    (get_prob_amp
      (controlled_not (hadamard (init_zero_state ⟨2, false, a⟩) 0).2 0 1).2
      1).1 = .ok 0 ∧
    (get_prob_amp
      (controlled_not (hadamard (init_zero_state ⟨2, false, a⟩) 0).2 0 1).2
      2).1 = .ok 0 := by
  have hs2 : Real.sqrt 2 * Real.sqrt 2 = 2 := Real.mul_self_sqrt (by norm_num)
  have hH : hadamard (init_zero_state ⟨2, false, a⟩) 0 =
      (.ok (), ⟨2, false, hadamard1 0 (fun k => if k = 0 then 1 else 0)⟩) := by
    show ffi.hadamard ⟨2, false, fun k => if k = 0 then 1 else 0⟩ 0 = _
    unfold ffi.hadamard
    rw [if_pos (by norm_num)]
    simp
  have hC : controlled_not
      (⟨2, false, hadamard1 0 (fun k => if k = 0 then 1 else 0)⟩ : Qureg) 0 1 =
      (.ok (), ⟨2, false,
        cnot1 0 1 (hadamard1 0 (fun k => if k = 0 then 1 else 0))⟩) := by
    unfold controlled_not ffi.controlledNot
    rw [if_pos (by norm_num)]
    simp
  have hB : ∀ ind : ℤ, 0 ≤ ind → ind < 4 →
      (get_prob_amp (⟨2, false,
        cnot1 0 1 (hadamard1 0 (fun k => if k = 0 then 1 else 0))⟩ : Qureg)
        ind).1 =
      .ok (Complex.normSq
        (cnot1 0 1 (hadamard1 0 (fun k => if k = 0 then 1 else 0))
          ind.toNat)) := by
    intro ind hi0 hi1
    unfold get_prob_amp ffi.getProbAmp
    rw [if_pos ⟨rfl, hi0, by simp [Qureg.dim]; omega⟩]
  have v0 : cnot1 0 1 (hadamard1 0 (fun k => if k = 0 then 1 else 0)) 0 =
      (1 + 0) / (Real.sqrt 2 : ℝ) := by
    simp [cnot1, hadamard1, flipBit]
  have v3 : cnot1 0 1 (hadamard1 0 (fun k => if k = 0 then 1 else 0)) 3 =
      (1 - 0) / (Real.sqrt 2 : ℝ) := by
    have e1 : (3 : ℕ).testBit 0 = true := by decide
    have e2 : flipBit 1 3 = 1 := by decide
    have e3 : (1 : ℕ).testBit 0 = true := by decide
    have e4 : flipBit 0 1 = 0 := by decide
    simp [cnot1, hadamard1, e1, e2, e3, e4]
  have v1 : cnot1 0 1 (hadamard1 0 (fun k => if k = 0 then 1 else 0)) 1 =
      (0 - 0) / (Real.sqrt 2 : ℝ) := by
    have e1 : (1 : ℕ).testBit 0 = true := by decide
    have e2 : flipBit 1 1 = 3 := by decide
    have e3 : (3 : ℕ).testBit 0 = true := by decide
    have e4 : flipBit 0 3 = 2 := by decide
    simp [cnot1, hadamard1, e1, e2, e3, e4]
  have v2 : cnot1 0 1 (hadamard1 0 (fun k => if k = 0 then 1 else 0)) 2 =
      (0 + 0) / (Real.sqrt 2 : ℝ) := by
    have e1 : (2 : ℕ).testBit 0 = false := by decide
    have e2 : flipBit 0 2 = 3 := by decide
    simp [cnot1, hadamard1, e1, e2]
  refine ⟨by rw [hH], ?_, ?_, ?_, ?_, ?_⟩
  · rw [hH]
    dsimp only
    rw [hC]
  · rw [hH]
    dsimp only
    rw [hC]
    dsimp only
    rw [hB 0 (by norm_num) (by norm_num)]
    norm_num [v0, Complex.normSq_div, Complex.normSq_ofReal, hs2]
  · rw [hH]
    dsimp only
    rw [hC]
    dsimp only
    rw [hB 3 (by norm_num) (by norm_num),
      show Int.toNat 3 = 3 from rfl]
    norm_num [v3, Complex.normSq_div, Complex.normSq_ofReal, hs2]
  · rw [hH]
    dsimp only
    rw [hC]
    dsimp only
    rw [hB 1 (by norm_num) (by norm_num)]
    norm_num [v1, Complex.normSq_div, Complex.normSq_ofReal, hs2]
  · rw [hH]
    dsimp only
    rw [hC]
    dsimp only
    rw [hB 2 (by norm_num) (by norm_num),
      show Int.toNat 2 = 2 from rfl]
    norm_num [v2, Complex.normSq_div, Complex.normSq_ofReal, hs2]

end QuestBind

namespace QuestBind

theorem sum_ite_split (n : ℕ) (P : ℕ → Prop) [DecidablePred P] (f : ℕ → ℝ) :
    (∑ i ∈ Finset.range n, if P i then f i else 0) +
      (∑ i ∈ Finset.range n, if P i then 0 else f i) =
      ∑ i ∈ Finset.range n, f i := by
  rw [← Finset.sum_add_distrib]
  refine Finset.sum_congr rfl fun i _ => ?_
  by_cases h : P i <;> simp [h]

theorem sum_ite_zero_div (n : ℕ) (P : ℕ → Prop) [DecidablePred P]
    (f : ℕ → ℝ) (c : ℝ) :
    (∑ i ∈ Finset.range n, if P i then 0 else f i / c) =
      (∑ i ∈ Finset.range n, if P i then 0 else f i) / c := by
  rw [Finset.sum_div]
  refine Finset.sum_congr rfl fun i _ => ?_
  by_cases h : P i <;> simp [h]

theorem sum_ite_div (n : ℕ) (P : ℕ → Prop) [DecidablePred P]
    (f : ℕ → ℝ) (c : ℝ) :
    (∑ i ∈ Finset.range n, if P i then f i / c else 0) =
      (∑ i ∈ Finset.range n, if P i then f i else 0) / c := by
  rw [Finset.sum_div]
  refine Finset.sum_congr rfl fun i _ => ?_
  by_cases h : P i <;> simp [h]

theorem diag_mod (D r : ℕ) (hr : r < D) : r * (D + 1) % D = r := by
  rw [Nat.mul_succ, Nat.mul_comm r D, Nat.mul_add_mod, Nat.mod_eq_of_lt hr]

theorem diag_div (D r : ℕ) (hD : 0 < D) (hr : r < D) : r * (D + 1) / D = r := by
  rw [Nat.mul_succ, Nat.add_comm, Nat.add_mul_div_right r r hD,
    Nat.div_eq_of_lt hr, Nat.zero_add]

theorem probZero_update (q : Qureg) (A : ℕ → ℂ) (t : ℕ) :
    probZero { q with amps := A } t =
      if q.isDensityMatrix then
        ∑ r ∈ Finset.range q.dim,
          (if r.testBit t then 0 else (A (r * (q.dim + 1))).re)
      else
        ∑ i ∈ Finset.range q.dim,
          (if i.testBit t then 0 else Complex.normSq (A i)) := rfl

theorem normTotal_update (q : Qureg) (A : ℕ → ℂ) :
    normTotal { q with amps := A } =
      if q.isDensityMatrix then
        ∑ r ∈ Finset.range q.dim, (A (r * (q.dim + 1))).re
      else
        ∑ i ∈ Finset.range q.dim, Complex.normSq (A i) := rfl

theorem probZero_density (q : Qureg) (t : ℕ) (hd : q.isDensityMatrix = true) :
    probZero q t =
      ∑ r ∈ Finset.range q.dim,
        (if r.testBit t then 0 else (q.amps (r * (q.dim + 1))).re) := by
  unfold probZero
  rw [if_pos hd]

theorem probZero_statevec (q : Qureg) (t : ℕ)
    (hd : ¬ q.isDensityMatrix = true) :
    probZero q t =
      ∑ i ∈ Finset.range q.dim,
        (if i.testBit t then 0 else Complex.normSq (q.amps i)) := by
  unfold probZero
  rw [if_neg hd]

theorem collapsedAmps_density (q : Qureg) (t : ℕ) (b : Bool) (p : ℝ)
    (hd : q.isDensityMatrix = true) :
    collapsedAmps q t b p = fun k =>
      if (k % q.dim).testBit t = b ∧ (k / q.dim).testBit t = b then
        q.amps k / (p : ℂ)
      else 0 := by
  unfold collapsedAmps
  rw [if_pos hd]

theorem collapsedAmps_statevec (q : Qureg) (t : ℕ) (b : Bool) (p : ℝ)
    (hd : ¬ q.isDensityMatrix = true) :
    collapsedAmps q t b p = fun i =>
      if i.testBit t = b then q.amps i / (Real.sqrt p : ℝ) else 0 := by
  unfold collapsedAmps
  rw [if_neg hd]

theorem probZero_collapse (q : Qureg) (t : ℕ) (oc : ℤ) (hoc : oc = 0 ∨ oc = 1)
    (hpnn : 0 ≤ outcomeProbVal q t oc) (hpne : outcomeProbVal q t oc ≠ 0) :
    probZero
      { q with amps := collapsedAmps q t (oc == 1) (outcomeProbVal q t oc) }
      t = if oc = 0 then 1 else 0 := by
  have hD : 0 < q.dim := Nat.pos_pow_of_pos _ (by norm_num)
  by_cases hd : q.isDensityMatrix = true
  · rw [probZero_update, if_pos hd,
      collapsedAmps_density q t _ _ hd]
    rcases hoc with rfl | rfl
    · rw [if_pos rfl]
      have hp : outcomeProbVal q t 0 = probZero q t := if_pos rfl
      rw [Finset.sum_congr rfl fun r hr => ?_, sum_ite_zero_div q.dim
        (fun r => r.testBit t = true) (fun r => (q.amps (r * (q.dim + 1))).re)
        (outcomeProbVal q t 0), ← probZero_density q t hd, ← hp]
      · exact div_self hpne
      · rw [Finset.mem_range] at hr
        by_cases hbit : r.testBit t = true
        · rw [if_pos hbit, if_pos hbit]
        · have hbit' : r.testBit t = false := by simpa using hbit
          rw [if_neg hbit, if_neg hbit]
          show (if (r * (q.dim + 1) % q.dim).testBit t = false ∧
              (r * (q.dim + 1) / q.dim).testBit t = false then
              q.amps (r * (q.dim + 1)) / (outcomeProbVal q t 0 : ℂ)
            else 0).re = (q.amps (r * (q.dim + 1))).re / outcomeProbVal q t 0
          rw [diag_mod q.dim r hr, diag_div q.dim r hD hr,
            if_pos ⟨hbit', hbit'⟩, Complex.div_ofReal_re]
    · rw [if_neg (by norm_num)]
      refine Finset.sum_eq_zero fun r hr => ?_
      rw [Finset.mem_range] at hr
      by_cases hbit : r.testBit t = true
      · rw [if_pos hbit]
      · have hbit' : r.testBit t = false := by simpa using hbit
        rw [if_neg hbit]
        show (if (r * (q.dim + 1) % q.dim).testBit t = true ∧
            (r * (q.dim + 1) / q.dim).testBit t = true then
            q.amps (r * (q.dim + 1)) / (outcomeProbVal q t 1 : ℂ)
          else 0).re = 0
        rw [diag_mod q.dim r hr, diag_div q.dim r hD hr,
          if_neg (fun hcon => by simp [hbit'] at hcon)]
        simp
  · rw [probZero_update, if_neg hd,
      collapsedAmps_statevec q t _ _ hd]
    rcases hoc with rfl | rfl
    · rw [if_pos rfl]
      have hp : outcomeProbVal q t 0 = probZero q t := if_pos rfl
      have hsq : Real.sqrt (outcomeProbVal q t 0) *
          Real.sqrt (outcomeProbVal q t 0) = outcomeProbVal q t 0 :=
        Real.mul_self_sqrt hpnn
      rw [Finset.sum_congr rfl fun i hi => ?_, sum_ite_zero_div q.dim
        (fun i => i.testBit t = true) (fun i => Complex.normSq (q.amps i))
        (outcomeProbVal q t 0), ← probZero_statevec q t hd, ← hp]
      · exact div_self hpne
      · by_cases hbit : i.testBit t = true
        · rw [if_pos hbit, if_pos hbit]
        · have hbit' : i.testBit t = false := by simpa using hbit
          rw [if_neg hbit, if_neg hbit]
          show Complex.normSq (if i.testBit t = false then
              q.amps i / ((Real.sqrt (outcomeProbVal q t 0) : ℝ) : ℂ)
            else 0) = Complex.normSq (q.amps i) / outcomeProbVal q t 0
          rw [if_pos hbit', Complex.normSq_div, Complex.normSq_ofReal, hsq]
    · rw [if_neg (by norm_num)]
      refine Finset.sum_eq_zero fun i _ => ?_
      by_cases hbit : i.testBit t = true
      · rw [if_pos hbit]
      · have hbit' : i.testBit t = false := by simpa using hbit
        rw [if_neg hbit]
        show Complex.normSq (if i.testBit t = true then
            q.amps i / ((Real.sqrt (outcomeProbVal q t 1) : ℝ) : ℂ)
          else 0) = 0
        rw [if_neg (by simp [hbit'])]
        simp

end QuestBind

namespace QuestBind

theorem normTotal_density (q : Qureg) (hd : q.isDensityMatrix = true) :
    normTotal q = ∑ r ∈ Finset.range q.dim, (q.amps (r * (q.dim + 1))).re := by
  unfold normTotal
  rw [if_pos hd]

theorem normTotal_statevec (q : Qureg) (hd : ¬ q.isDensityMatrix = true) :
    normTotal q = ∑ i ∈ Finset.range q.dim, Complex.normSq (q.amps i) := by
  unfold normTotal
  rw [if_neg hd]

theorem normTotal_collapse (q : Qureg) (t : ℕ) (oc : ℤ)
    (hoc : oc = 0 ∨ oc = 1) (hpnn : 0 ≤ outcomeProbVal q t oc)
    (hpne : outcomeProbVal q t oc ≠ 0) (htot : normTotal q = 1) :
    normTotal
      { q with amps := collapsedAmps q t (oc == 1) (outcomeProbVal q t oc) } =
      1 := by
  have hD : 0 < q.dim := Nat.pos_pow_of_pos _ (by norm_num)
  by_cases hd : q.isDensityMatrix = true
  · rw [normTotal_update, if_pos hd, collapsedAmps_density q t _ _ hd]
    rcases hoc with rfl | rfl
    · have hp : outcomeProbVal q t 0 = probZero q t := if_pos rfl
      rw [Finset.sum_congr rfl fun r hr => ?_, sum_ite_zero_div q.dim
        (fun r => r.testBit t = true) (fun r => (q.amps (r * (q.dim + 1))).re)
        (outcomeProbVal q t 0), ← probZero_density q t hd, ← hp]
      · exact div_self hpne
      · rw [Finset.mem_range] at hr
        show (if (r * (q.dim + 1) % q.dim).testBit t = false ∧
            (r * (q.dim + 1) / q.dim).testBit t = false then
            q.amps (r * (q.dim + 1)) / (outcomeProbVal q t 0 : ℂ)
          else 0).re =
          if r.testBit t then 0
          else (q.amps (r * (q.dim + 1))).re / outcomeProbVal q t 0
        rw [diag_mod q.dim r hr, diag_div q.dim r hD hr]
        by_cases hbit : r.testBit t = true
        · rw [if_neg (fun hcon => by simp [hbit] at hcon), if_pos hbit]
          simp
        · have hbit' : r.testBit t = false := by simpa using hbit
          rw [if_pos ⟨hbit', hbit'⟩, if_neg hbit, Complex.div_ofReal_re]
    · have hp : outcomeProbVal q t 1 = 1 - probZero q t := if_neg (by norm_num)
      have hsplit := sum_ite_split q.dim (fun r => r.testBit t = true)
        (fun r => (q.amps (r * (q.dim + 1))).re)
      rw [Finset.sum_congr rfl fun r hr => ?_, sum_ite_div q.dim
        (fun r => r.testBit t = true) (fun r => (q.amps (r * (q.dim + 1))).re)
        (outcomeProbVal q t 1)]
      · rw [normTotal_density q hd] at htot
        rw [probZero_density q t hd] at hp
        rw [show (∑ r ∈ Finset.range q.dim,
            if r.testBit t = true then (q.amps (r * (q.dim + 1))).re else 0) =
            outcomeProbVal q t 1 from by rw [hp]; linarith]
        exact div_self hpne
      · rw [Finset.mem_range] at hr
        show (if (r * (q.dim + 1) % q.dim).testBit t = true ∧
            (r * (q.dim + 1) / q.dim).testBit t = true then
            q.amps (r * (q.dim + 1)) / (outcomeProbVal q t 1 : ℂ)
          else 0).re =
          if r.testBit t then
            (q.amps (r * (q.dim + 1))).re / outcomeProbVal q t 1
          else 0
        rw [diag_mod q.dim r hr, diag_div q.dim r hD hr]
        by_cases hbit : r.testBit t = true
        · rw [if_pos ⟨hbit, hbit⟩, if_pos hbit, Complex.div_ofReal_re]
        · have hbit' : r.testBit t = false := by simpa using hbit
          rw [if_neg (fun hcon => by simp [hbit'] at hcon), if_neg hbit]
          simp
  · rw [normTotal_update, if_neg hd, collapsedAmps_statevec q t _ _ hd]
    rcases hoc with rfl | rfl
    · have hp : outcomeProbVal q t 0 = probZero q t := if_pos rfl
      have hsq : Real.sqrt (outcomeProbVal q t 0) *
          Real.sqrt (outcomeProbVal q t 0) = outcomeProbVal q t 0 :=
        Real.mul_self_sqrt hpnn
      rw [Finset.sum_congr rfl fun i hi => ?_, sum_ite_zero_div q.dim
        (fun i => i.testBit t = true) (fun i => Complex.normSq (q.amps i))
        (outcomeProbVal q t 0), ← probZero_statevec q t hd, ← hp]
      · exact div_self hpne
      · show Complex.normSq (if i.testBit t = false then
            q.amps i / ((Real.sqrt (outcomeProbVal q t 0) : ℝ) : ℂ)
          else 0) =
          if i.testBit t then 0
          else Complex.normSq (q.amps i) / outcomeProbVal q t 0
        by_cases hbit : i.testBit t = true
        · rw [if_neg (by simp [hbit]), if_pos hbit]
          simp
        · have hbit' : i.testBit t = false := by simpa using hbit
          rw [if_pos hbit', if_neg hbit, Complex.normSq_div,
            Complex.normSq_ofReal, hsq]
    · have hp : outcomeProbVal q t 1 = 1 - probZero q t := if_neg (by norm_num)
      have hsq : Real.sqrt (outcomeProbVal q t 1) *
          Real.sqrt (outcomeProbVal q t 1) = outcomeProbVal q t 1 :=
        Real.mul_self_sqrt hpnn
      have hsplit := sum_ite_split q.dim (fun i => i.testBit t = true)
        (fun i => Complex.normSq (q.amps i))
      rw [Finset.sum_congr rfl fun i hi => ?_, sum_ite_div q.dim
        (fun i => i.testBit t = true) (fun i => Complex.normSq (q.amps i))
        (outcomeProbVal q t 1)]
      · rw [normTotal_statevec q hd] at htot
        rw [probZero_statevec q t hd] at hp
        rw [show (∑ i ∈ Finset.range q.dim,
            if i.testBit t = true then Complex.normSq (q.amps i) else 0) =
            outcomeProbVal q t 1 from by rw [hp]; linarith]
        exact div_self hpne
      · show Complex.normSq (if i.testBit t = true then
            q.amps i / ((Real.sqrt (outcomeProbVal q t 1) : ℝ) : ℂ)
          else 0) =
          if i.testBit t then
            Complex.normSq (q.amps i) / outcomeProbVal q t 1
          else 0
        by_cases hbit : i.testBit t = true
        · rw [if_pos hbit, if_pos hbit, Complex.normSq_div,
            Complex.normSq_ofReal, hsq]
        · have hbit' : i.testBit t = false := by simpa using hbit
          rw [if_neg hbit, if_neg hbit]
          simp

end QuestBind

namespace QuestBind

theorem outcomeProbVal_zero (q : Qureg) (t : ℕ) :
    outcomeProbVal q t 0 = probZero q t := if_pos rfl

theorem outcomeProbVal_one (q : Qureg) (t : ℕ) :
    outcomeProbVal q t 1 = 1 - probZero q t := if_neg (by norm_num)

/-- C2: for a valid qubit and an outcome in `{0, 1}`,
`collapse_to_outcome` fails exactly when the outcome probability is
numerically zero (below QuEST's `REAL_EPS`); on success it returns that
probability, zeroes every amplitude inconsistent with the outcome while
rescaling the survivors by `1/sqrt(p)` (state-vector) or `1/p` (density
matrix), and normalization is restored whenever the input register was
normalized. -/
theorem collapse_to_outcome_spec (q : Qureg) (mq oc : ℤ)
    (h0 : 0 ≤ mq) (h1 : mq < (q.numQubits : ℤ)) (hoc : oc = 0 ∨ oc = 1) :
    ((∃ e, (collapse_to_outcome q mq oc).1 = .error e) ↔
      outcomeProbVal q mq.toNat oc < REAL_EPS) ∧
    (¬ outcomeProbVal q mq.toNat oc < REAL_EPS →
      (collapse_to_outcome q mq oc).1 = .ok (outcomeProbVal q mq.toNat oc) ∧
      (collapse_to_outcome q mq oc).2 =
        { q with
          amps := collapsedAmps q mq.toNat (oc == 1)
            (outcomeProbVal q mq.toNat oc) } ∧
      (normTotal q = 1 → normTotal (collapse_to_outcome q mq oc).2 = 1)) := by
  have hc : 0 ≤ mq ∧ mq < (q.numQubits : ℤ) ∧ (oc = 0 ∨ oc = 1) :=
    ⟨h0, h1, hoc⟩
  by_cases hlt : outcomeProbVal q mq.toNat oc < REAL_EPS
  · have hco : collapse_to_outcome q mq oc =
        (.error .invalidQuESTInputError, q) := by
      unfold collapse_to_outcome ffi.collapseToOutcome
      rw [if_pos hc, if_pos hlt]
    rw [hco]
    exact ⟨⟨fun _ => hlt, fun _ => ⟨_, rfl⟩⟩, fun hn => absurd hlt hn⟩
  · have hco : collapse_to_outcome q mq oc =
        (.ok (outcomeProbVal q mq.toNat oc),
         { q with
           amps := collapsedAmps q mq.toNat (oc == 1)
             (outcomeProbVal q mq.toNat oc) }) := by
      unfold collapse_to_outcome ffi.collapseToOutcome
      rw [if_pos hc, if_neg hlt]
    rw [hco]
    have heps : (0 : ℝ) < REAL_EPS := by norm_num [REAL_EPS]
    have hppos : 0 < outcomeProbVal q mq.toNat oc :=
      lt_of_lt_of_le heps (not_lt.mp hlt)
    refine ⟨⟨fun he => ?_, fun hcon => absurd hcon hlt⟩,
      fun _ => ⟨rfl, rfl, fun htot => ?_⟩⟩
    · obtain ⟨e, he⟩ := he
      exact absurd he (by simp)
    · exact normTotal_collapse q mq.toNat oc hoc hppos.le
        (ne_of_gt hppos) htot

/-- Witness for C2 at a concrete input: collapsing qubit `0` of the
one-qubit state `|0>` onto outcome `0` succeeds and returns the outcome
probability. -/
theorem collapse_to_outcome_spec_witness :
    (collapse_to_outcome ⟨1, false, fun k => if k = 0 then 1 else 0⟩ 0 0).1 =
      .ok (outcomeProbVal ⟨1, false, fun k => if k = 0 then 1 else 0⟩ 0 0) := by
  have ht0 : (0 : ℕ).testBit 0 = false := by decide
  have ht1 : (1 : ℕ).testBit 0 = true := by decide
  have hval : outcomeProbVal
      (⟨1, false, fun k => if k = 0 then 1 else 0⟩ : Qureg) (Int.toNat 0) 0 =
      1 := by
    norm_num [outcomeProbVal, probZero, Qureg.dim, Finset.sum_range_succ,
      ht0, ht1]
  exact ((collapse_to_outcome_spec ⟨1, false, fun k => if k = 0 then 1 else 0⟩
    0 0 (by norm_num) (by norm_num) (Or.inl rfl)).2
    (by rw [hval]; norm_num [REAL_EPS])).1

/-- C7: whenever `collapse_to_outcome(q, b)` succeeds, an immediate
`calc_prob_of_outcome(q, b)` on the collapsed register returns `1` and
`calc_prob_of_outcome(q, 1 - b)` returns `0`, both within `1e-10` (in
the real-number model they are exact). -/
theorem collapse_then_calc_prob (q : Qureg) (mq oc : ℤ)
    (h0 : 0 ≤ mq) (h1 : mq < (q.numQubits : ℤ)) (hoc : oc = 0 ∨ oc = 1)
    (hsucc : ∃ v, (collapse_to_outcome q mq oc).1 = .ok v) :
    (∃ v, (calc_prob_of_outcome (collapse_to_outcome q mq oc).2 mq oc).1 =
        .ok v ∧ |v - 1| ≤ 1 / 10 ^ 10) ∧
    (∃ w, (calc_prob_of_outcome (collapse_to_outcome q mq oc).2 mq
        (1 - oc)).1 = .ok w ∧ |w| ≤ 1 / 10 ^ 10) := by
  have hc : 0 ≤ mq ∧ mq < (q.numQubits : ℤ) ∧ (oc = 0 ∨ oc = 1) :=
    ⟨h0, h1, hoc⟩
  by_cases hlt : outcomeProbVal q mq.toNat oc < REAL_EPS
  · exfalso
    obtain ⟨v, hv⟩ := hsucc
    unfold collapse_to_outcome ffi.collapseToOutcome at hv
    rw [if_pos hc, if_pos hlt] at hv
    simp at hv
  · have hco2 : (collapse_to_outcome q mq oc).2 =
        { q with
          amps := collapsedAmps q mq.toNat (oc == 1)
            (outcomeProbVal q mq.toNat oc) } := by
      unfold collapse_to_outcome ffi.collapseToOutcome
      rw [if_pos hc, if_neg hlt]
    have heps : (0 : ℝ) < REAL_EPS := by norm_num [REAL_EPS]
    have hppos : 0 < outcomeProbVal q mq.toNat oc :=
      lt_of_lt_of_le heps (not_lt.mp hlt)
    have hpz := probZero_collapse q mq.toNat oc hoc hppos.le (ne_of_gt hppos)
    rw [hco2]
    rcases hoc with rfl | rfl
    · rw [if_pos rfl] at hpz
      constructor
      · refine ⟨1, ?_, by norm_num⟩
        unfold calc_prob_of_outcome ffi.calcProbOfOutcome
        rw [if_pos ⟨h0, h1, Or.inl rfl⟩,
          show outcomeProbVal
            { q with
              amps := collapsedAmps q mq.toNat ((0 : ℤ) == 1)
                (outcomeProbVal q mq.toNat 0) } mq.toNat 0 = 1 from by
            rw [outcomeProbVal_zero, hpz]]
      · refine ⟨0, ?_, by norm_num⟩
        rw [show (1 - 0 : ℤ) = 1 from by norm_num]
        unfold calc_prob_of_outcome ffi.calcProbOfOutcome
        rw [if_pos ⟨h0, h1, Or.inr rfl⟩,
          show outcomeProbVal
            { q with
              amps := collapsedAmps q mq.toNat ((0 : ℤ) == 1)
                (outcomeProbVal q mq.toNat 0) } mq.toNat 1 = 0 from by
            rw [outcomeProbVal_one, hpz]
            norm_num]
    · rw [if_neg (by norm_num)] at hpz
      constructor
      · refine ⟨1, ?_, by norm_num⟩
        unfold calc_prob_of_outcome ffi.calcProbOfOutcome
        rw [if_pos ⟨h0, h1, Or.inr rfl⟩,
          show outcomeProbVal
            { q with
              amps := collapsedAmps q mq.toNat ((1 : ℤ) == 1)
                (outcomeProbVal q mq.toNat 1) } mq.toNat 1 = 1 from by
            rw [outcomeProbVal_one, hpz]
            norm_num]
      · refine ⟨0, ?_, by norm_num⟩
        rw [show (1 - 1 : ℤ) = 0 from by norm_num]
        unfold calc_prob_of_outcome ffi.calcProbOfOutcome
        rw [if_pos ⟨h0, h1, Or.inl rfl⟩,
          show outcomeProbVal
            { q with
              amps := collapsedAmps q mq.toNat ((1 : ℤ) == 1)
                (outcomeProbVal q mq.toNat 1) } mq.toNat 0 = 0 from by
            rw [outcomeProbVal_zero, hpz]]

/-- Witness for C7 at a concrete input: after collapsing qubit `0` of
the one-qubit state `|0>` onto outcome `0`, the probability of outcome
`0` is `1` within `1e-10`. -/
theorem collapse_then_calc_prob_witness :
    ∃ v, (calc_prob_of_outcome
        (collapse_to_outcome ⟨1, false, fun k => if k = 0 then 1 else 0⟩ 0
          0).2 0 0).1 = .ok v ∧ |v - 1| ≤ 1 / 10 ^ 10 := by
  have ht0 : (0 : ℕ).testBit 0 = false := by decide
  have ht1 : (1 : ℕ).testBit 0 = true := by decide
  have hval : outcomeProbVal
      (⟨1, false, fun k => if k = 0 then 1 else 0⟩ : Qureg) (Int.toNat 0) 0 =
      1 := by
    norm_num [outcomeProbVal, probZero, Qureg.dim, Finset.sum_range_succ,
      ht0, ht1]
  have hsucc : ∃ v,
      (collapse_to_outcome ⟨1, false, fun k => if k = 0 then 1 else 0⟩ 0
        0).1 = .ok v := by
    refine ⟨outcomeProbVal
      (⟨1, false, fun k => if k = 0 then 1 else 0⟩ : Qureg) (Int.toNat 0) 0,
      ?_⟩
    unfold collapse_to_outcome ffi.collapseToOutcome
    rw [if_pos ⟨by norm_num, by norm_num, Or.inl rfl⟩,
      if_neg (by rw [hval]; norm_num [REAL_EPS])]
  exact (collapse_then_calc_prob ⟨1, false, fun k => if k = 0 then 1 else 0⟩
    0 0 (by norm_num) (by norm_num) (Or.inl rfl) hsucc).1

end QuestBind
